import Mathlib

/-
Verification of the hotwheels-portal protocol decoders and race/timing state
machines, shallowly embedded from the Python sources (portal_app.py,
dashboard.py, race_mode.py).  Python floats are modelled by ℚ (all values the
properties touch are exactly representable), byte strings by `List ℕ`, and
`datetime` instants by ℚ timestamps passed explicitly to each handler.
-/

/-- Lower-case hex digit for a value below 16 (Python formatting). -/
def hexDigitLower (n : ℕ) : Char :=
  if n < 10 then Char.ofNat (48 + n) else Char.ofNat (87 + n)

/-- Upper-case hex digit for a value below 16 (Python formatting). -/
def hexDigitUpper (n : ℕ) : Char :=
  if n < 10 then Char.ofNat (48 + n) else Char.ofNat (55 + n)

/-- Two-digit lower-case hex rendering of a byte, as Python `b:02x` format. -/
def hexByteLower (b : ℕ) : String :=
  String.mk [hexDigitLower (b / 16 % 16), hexDigitLower (b % 16)]

/-- Two-digit upper-case hex rendering of a byte, as Python `b:02X` format. -/
def hexByteUpper (b : ℕ) : String :=
  String.mk [hexDigitUpper (b / 16 % 16), hexDigitUpper (b % 16)]

/-- Embedding of Python `bytes.hex()`: lower-case hex pairs, concatenated. -/
def bytesHex (bs : List ℕ) : String :=
  String.join (bs.map hexByteLower)

/-- Embedding of Python `bytes.hex().upper()`. -/
def bytesHexUpper (bs : List ℕ) : String :=
  String.join (bs.map hexByteUpper)

/-- Groups a character list into strings of two, as the comprehension
`s[i:i+2] for i in range(0, len(s), 2)` in portal_app.decode_car_event. -/
def chunk2 : List Char → List String
  | a :: b :: rest => String.mk [a, b] :: chunk2 rest
  | [a] => String.mk [a] :: []
  | [] => []

/-- Python slice `data[a:b]` for non-negative bounds (truncating, never
failing): drop `a` then take `b - a` elements. -/
def pySlice (data : List ℕ) (a b : ℕ) : List ℕ :=
  (data.drop a).take (b - a)

/-- Unicode replacement character U+FFFD used by `errors='replace'`. -/
def replChar : Char := Char.ofNat 0xFFFD

/-- Validity of the second byte of a 3-byte UTF-8 sequence, per lead byte. -/
def utf8Cont3OK (b b2 : ℕ) : Prop :=
  if b = 0xE0 then 0xA0 ≤ b2 ∧ b2 ≤ 0xBF
  else if b = 0xED then 0x80 ≤ b2 ∧ b2 ≤ 0x9F
  else 0x80 ≤ b2 ∧ b2 ≤ 0xBF

instance (b b2 : ℕ) : Decidable (utf8Cont3OK b b2) := by
  unfold utf8Cont3OK; infer_instance

/-- Validity of the second byte of a 4-byte UTF-8 sequence, per lead byte. -/
def utf8Cont4OK (b b2 : ℕ) : Prop :=
  if b = 0xF0 then 0x90 ≤ b2 ∧ b2 ≤ 0xBF
  else if b = 0xF4 then 0x80 ≤ b2 ∧ b2 ≤ 0x8F
  else 0x80 ≤ b2 ∧ b2 ≤ 0xBF

instance (b b2 : ℕ) : Decidable (utf8Cont4OK b b2) := by
  unfold utf8Cont4OK; infer_instance

/-- UTF-8 decoding with replacement of invalid sequences, modelling Python's
`bytes.decode('utf-8', errors='replace')`: each invalid maximal subpart is
replaced by U+FFFD and decoding resumes at the offending byte. -/
def utf8DecodeChars : List ℕ → List Char
  | [] => []
  | b :: rest =>
    if b < 0x80 then Char.ofNat b :: utf8DecodeChars rest
    else if 0xC2 ≤ b ∧ b ≤ 0xDF then
      match rest with
      | [] => [replChar]
      | b2 :: rest2 =>
        if 0x80 ≤ b2 ∧ b2 ≤ 0xBF then
          Char.ofNat ((b - 0xC0) * 0x40 + (b2 - 0x80)) :: utf8DecodeChars rest2
        else replChar :: utf8DecodeChars (b2 :: rest2)
    else if 0xE0 ≤ b ∧ b ≤ 0xEF then
      match rest with
      | [] => [replChar]
      | b2 :: rest2 =>
        if utf8Cont3OK b b2 then
          match rest2 with
          | [] => [replChar]
          | b3 :: rest3 =>
            if 0x80 ≤ b3 ∧ b3 ≤ 0xBF then
              Char.ofNat (((b - 0xE0) * 0x40 + (b2 - 0x80)) * 0x40 + (b3 - 0x80)) ::
                utf8DecodeChars rest3
            else replChar :: utf8DecodeChars (b3 :: rest3)
        else replChar :: utf8DecodeChars (b2 :: rest2)
    else if 0xF0 ≤ b ∧ b ≤ 0xF4 then
      match rest with
      | [] => [replChar]
      | b2 :: rest2 =>
        if utf8Cont4OK b b2 then
          match rest2 with
          | [] => [replChar]
          | b3 :: rest3 =>
            if 0x80 ≤ b3 ∧ b3 ≤ 0xBF then
              match rest3 with
              | [] => [replChar]
              | b4 :: rest4 =>
                if 0x80 ≤ b4 ∧ b4 ≤ 0xBF then
                  Char.ofNat
                    ((((b - 0xF0) * 0x40 + (b2 - 0x80)) * 0x40 + (b3 - 0x80)) * 0x40 +
                      (b4 - 0x80)) :: utf8DecodeChars rest4
                else replChar :: utf8DecodeChars (b4 :: rest4)
            else replChar :: utf8DecodeChars (b3 :: rest3)
        else replChar :: utf8DecodeChars (b2 :: rest2)
    else replChar :: utf8DecodeChars rest

/-- String-valued form of the lossy UTF-8 decode. -/
def utf8DecodeReplace (bs : List ℕ) : String :=
  String.mk (utf8DecodeChars bs)

/-- Exact rational value of an IEEE-754 binary32 little-endian encoding given
the first four bytes `b0 b1 b2 b3`, as read by `struct.unpack` with the `f`
little-endian format.  Exponent 255 (infinities/NaNs) has no rational value
and is mapped to 0; no property in this development touches such payloads. -/
def float32OfBytesLE (data : List ℕ) : ℚ :=
  let bits : ℕ :=
    data.getD 0 0 + 256 * (data.getD 1 0 + 256 * (data.getD 2 0 + 256 * data.getD 3 0))
  let sign : ℕ := bits / 2 ^ 31 % 2
  let e : ℕ := bits / 2 ^ 23 % 256
  let m : ℕ := bits % 2 ^ 23
  let mag : ℚ :=
    if e = 255 then 0
    else if e = 0 then (m : ℚ) / 2 ^ 149
    else ((2 ^ 23 + m : ℕ) : ℚ) * 2 ^ e / 2 ^ 150
  if sign = 1 then -mag else mag

/-- String constant used by decode_car_event. -/
def strCarDetected : String := "Car Detected"

/-- Opening of the unknown-tag label in decode_car_event. -/
def strUnknownOpen : String := "Unknown (0x"

/-- Closing parenthesis of the unknown-tag label. -/
def strCloseParen : String := ")"

/-- Colon separator for canonical UID rendering. -/
def strColon : String := ":"

/-- Result of portal_app.decode_car_event: either the raw-hex fallback dict
or the parsed car-detection dict. -/
inductive CarEventResult where
  | raw (hex : String)
  | parsed (event_type : ℕ) (nfc_uid : String) (type_name : String)
deriving DecidableEq

/-- Embedding of portal_app.decode_car_event (Event Channel 2, car detection).
Payload shorter than 7 bytes degrades to the raw-hex dict; otherwise byte 0 is
the type tag and bytes 1-6 are rendered as upper-case hex pairs joined by
colons. -/
def decode_car_event (data : List ℕ) : CarEventResult :=
  if data.length < 7 then .raw (bytesHex data)
  else
    let event_type := data.getD 0 0
    let nfc_uid := bytesHexUpper (pySlice data 1 7)
    let nfc_formatted := String.intercalate strColon (chunk2 nfc_uid.data)
    .parsed event_type nfc_formatted
      (if event_type = 0x04 then strCarDetected
       else strUnknownOpen ++ hexByteLower event_type ++ strCloseParen)

/-- Fields of the dict built by decode_ndef_record for payloads of at least
10 bytes; absent dict keys are `none`. -/
structure NdefParsed where
  uri : Option String
  mattel_id : Option String
  mattel_id_decoded : Option String
  signature : Option String
  signature_len : Option ℕ
deriving DecidableEq

/-- Result of portal_app.decode_ndef_record: the empty-payload dict, the
raw-hex fallback dict, or the parsed record. -/
inductive NdefResult where
  | empty
  | raw (hex : String)
  | parsed (r : NdefParsed)
deriving DecidableEq

/-- URI accessor on an NDEF decode result (the `uri` dict key, absent on the
fallback variants). -/
def ndefUri : NdefResult → Option String
  | .parsed r => r.uri
  | _ => none

/-- Embedding of the `uri_prefixes` lookup table of decode_ndef_record with
its `.get(code, "")` fallback: unknown codes map to the empty string. -/
def uriPrefixTable (code : ℕ) : String :=
  if code = 0 then ""
  else if code = 1 then "http://www."
  else if code = 2 then "https://www."
  else if code = 3 then "http://"
  else if code = 4 then "https://"
  else ""

/-- Marker substring of the Mattel identity scheme inside decoded URIs. -/
def pidMattelMarker : String := "pid.mattel/"

/-- Base64 (URL-safe alphabet) value of one character, `none` outside the
alphabet. -/
def b64Val (c : Char) : Option ℕ :=
  if 65 ≤ c.toNat ∧ c.toNat ≤ 90 then some (c.toNat - 65)
  else if 97 ≤ c.toNat ∧ c.toNat ≤ 122 then some (c.toNat - 71)
  else if 48 ≤ c.toNat ∧ c.toNat ≤ 57 then some (c.toNat + 4)
  else if c = '-' then some 62
  else if c = '_' then some 63
  else none

/-- Decodes base64 quadruples with trailing `=` padding; `none` models the
binascii error raised on malformed input. -/
def b64Groups : List Char → Option (List ℕ)
  | [] => some []
  | a :: b :: c :: d :: rest =>
    match b64Val a, b64Val b with
    | some va, some vb =>
      if c = '=' ∧ d = '=' ∧ rest = [] then some [va * 4 + vb / 16]
      else
        match b64Val c with
        | some vc =>
          if d = '=' ∧ rest = [] then some [va * 4 + vb / 16, vb % 16 * 16 + vc / 4]
          else
            match b64Val d with
            | some vd =>
              (b64Groups rest).map
                (fun tl => (va * 4 + vb / 16) :: (vb % 16 * 16 + vc / 4) :: (vc % 4 * 64 + vd) :: tl)
            | none => none
        | none => none
    | _, _ => none
  | _ => none

/-- Model of Python base64.urlsafe_b64decode over the characters of `s`. -/
def urlsafeB64Decode (s : String) : Option (List ℕ) :=
  b64Groups s.data

/-- Padding appended to the Mattel id before base64 decoding. -/
def strPadEq : String := "=="

/-- Embedding of portal_app.decode_ndef_record (Event Channel 1).  Payloads
under 10 bytes degrade to the empty/raw dict; otherwise the fixed NDEF header
is parsed, a type-`U` record yields `uri` from the prefix table plus the
lossily decoded remainder of the declared payload, the Mattel id is split off
after the marker (base64 decode failure silently omits the decoded field),
and bytes beyond the payload boundary become the opaque signature.  Python's
substring test `marker in uri` is modelled by `splitOn` producing more than
one part, which is equivalent for a non-empty marker. -/
def decode_ndef_record (data : List ℕ) : NdefResult :=
  if data.length < 10 then
    if data.length = 0 then .empty else .raw (bytesHex data)
  else
    let type_len := data.getD 1 0
    let payload_len := data.getD 2 0
    let record_type := pySlice data 3 (3 + type_len)
    let base : NdefParsed :=
      if record_type = [0x55] then
        let uri_prefix_code := data.getD 4 0
        let uri_content := utf8DecodeReplace (pySlice data 5 (4 + payload_len))
        let full_uri := uriPrefixTable uri_prefix_code ++ uri_content
        let r0 : NdefParsed := ⟨some full_uri, none, none, none, none⟩
        let parts := full_uri.splitOn pidMattelMarker
        if 1 < parts.length then
          let mattel_id := parts.getD 1 ""
          let r1 := { r0 with mattel_id := some mattel_id }
          match urlsafeB64Decode (mattel_id ++ strPadEq) with
          | some bs => { r1 with mattel_id_decoded := some (bytesHex bs) }
          | none => r1
        else r0
      else ⟨none, none, none, none, none⟩
    let ndef_end := 4 + payload_len
    if ndef_end < data.length then
      let extra := data.drop ndef_end
      .parsed { base with signature := some (bytesHex extra), signature_len := some extra.length }
    else .parsed base

/-- Result of portal_app.decode_speed_event. -/
inductive SpeedResult where
  | raw (hex : String)
  | parsed (raw_float scaled_mph : ℚ)
deriving DecidableEq

/-- Embedding of portal_app.decode_speed_event (Event Channel 3): payloads
under 4 bytes degrade to the raw-hex dict, otherwise the first 4 bytes are a
little-endian binary32 float, scaled by 64. -/
def decode_speed_event (data : List ℕ) : SpeedResult :=
  if data.length < 4 then .raw (bytesHex data)
  else
    let speed_float := float32OfBytesLE data
    .parsed speed_float (speed_float * 64)

/-- Pattern label of the control-register dict. -/
def strHeartbeat : String := "heartbeat/status"

/-- Result of portal_app.decode_control_register. -/
inductive ControlResult where
  | raw (hex : String)
  | status (byte0 byte1 byte2 byte3 byte4 : ℕ) (pattern_label : String)
deriving DecidableEq

/-- Embedding of portal_app.decode_control_register: payloads under 5 bytes
degrade to the raw-hex dict, otherwise the five raw bytes are exposed. -/
def decode_control_register (data : List ℕ) : ControlResult :=
  if data.length < 5 then .raw (bytesHex data)
  else
    .status (data.getD 0 0) (data.getD 1 0) (data.getD 2 0) (data.getD 3 0) (data.getD 4 0)
      strHeartbeat

/-- Logical notification channels (BLE characteristics) distinguished by the
handlers: hwportal.constants CHAR_EVENT_1/2/3, CHAR_SERIAL_NUMBER,
CHAR_CONTROL, plus a catch-all for every other characteristic. -/
inductive Characteristic where
  | event1
  | event2
  | event3
  | serial_number
  | control
  | other
deriving DecidableEq

/-- Game states of race_mode.GameState. -/
inductive GameState where
  | menu
  | setup
  | countdown
  | racing
  | finished
  | leaderboard
deriving DecidableEq

/-- Embedding of the race_mode.RaceResult dataclass.  The `timestamp` field
(a `datetime.now()` default used only for display) is outside the model. -/
structure RaceResult where
  player_name : String
  car_uid : String
  lap_count : ℕ
  lap_times : List ℚ
  total_time : ℚ
  best_lap : ℚ
  best_lap_num : ℕ
  worst_lap : ℚ
  worst_lap_num : ℕ
  avg_lap : ℚ
deriving DecidableEq

/-- Python `min` over a list (left fold keeping the earlier element on ties);
only ever applied to non-empty lists, mirroring the guard in finish_race. -/
def listMin : List ℚ → ℚ
  | [] => 0
  | x :: xs => xs.foldl min x

/-- Python `max` over a list, same conventions as `listMin`. -/
def listMax : List ℚ → ℚ
  | [] => 0
  | x :: xs => xs.foldl max x

/-- Python `list.index`: index of the first occurrence of `a`; only ever
applied to members, mirroring finish_race. -/
def idx_of (a : ℚ) : List ℚ → ℕ
  | [] => 0
  | x :: xs => if x = a then 0 else idx_of a xs + 1

/-- Fallback car uid used by finish_race when no car is set. -/
def strUnknown : String := "Unknown"

/-- Prefix of generated player names. -/
def strPlayer : String := "Player "

/-- Mutable state of race_mode.RaceGame, without the presentation-only
console/portal handles and status strings (terminal rendering is an external
collaborator per the design).  `last_lap_time` and `race_start_time` are
instants (ℚ). -/
structure RaceState where
  state : GameState
  target_laps : ℕ
  current_lap : ℕ
  lap_times : List ℚ
  last_lap_time : Option ℚ
  race_start_time : Option ℚ
  current_car_uid : Option String
  current_car_serial : Option String
  last_speed : ℚ
  current_player : String
  player_count : ℕ
  results : List RaceResult
  countdown_value : ℕ
  needs_refresh : Bool
deriving DecidableEq

/-- Initial RaceGame state (RaceGame.__init__). -/
def initRace : RaceState where
  state := .menu
  target_laps := 10
  current_lap := 0
  lap_times := []
  last_lap_time := none
  race_start_time := none
  current_car_uid := none
  current_car_serial := none
  last_speed := 0
  current_player := "Player 1"
  player_count := 1
  results := []
  countdown_value := 3
  needs_refresh := true

/-- Canonical colon-joined upper-case hex rendering of bytes 1-6 of a
detection payload, as the comprehension shared by race_mode.handle_event and
dashboard.handle_event. -/
def formatUid (data : List ℕ) : String :=
  String.intercalate strColon ((pySlice data 1 7).map hexByteUpper)

/-- Embedding of RaceGame.start_race: resets the lap counter, the lap list
and the session's last pass instant, then enters Racing. -/
def RaceGame.start_race (s : RaceState) (now : ℚ) : RaceState :=
  { s with
    current_lap := 0
    lap_times := []
    last_lap_time := none
    race_start_time := some now
    state := .racing
    needs_refresh := true }

/-- The RaceResult constructed by RaceGame.finish_race from the current
session (total, first minimum and maximum with 1-based indices, average).
Python truthiness of `self.current_car_uid or "Unknown"` treats both `None`
and the empty string as absent. -/
def finish_result (s : RaceState) : RaceResult :=
  let total_time := s.lap_times.sum
  let best_lap := listMin s.lap_times
  let worst_lap := listMax s.lap_times
  { player_name := s.current_player
    car_uid :=
      match s.current_car_uid with
      | some u => if u = "" then strUnknown else u
      | none => strUnknown
    lap_count := s.lap_times.length
    lap_times := s.lap_times
    total_time := total_time
    best_lap := best_lap
    best_lap_num := idx_of best_lap s.lap_times + 1
    worst_lap := worst_lap
    worst_lap_num := idx_of worst_lap s.lap_times + 1
    avg_lap := total_time / (s.lap_times.length : ℚ) }

/-- Embedding of RaceGame.finish_race: an empty lap list returns with no
change at all; otherwise the result snapshot is appended and the machine
enters Finished. -/
def RaceGame.finish_race (s : RaceState) : RaceState :=
  if s.lap_times = [] then s
  else
    { s with
      results := s.results ++ [finish_result s]
      state := .finished
      needs_refresh := true }

/-- Embedding of RaceGame.handle_event, dispatching on the characteristic.
The speed branch runs only with a payload of at least 4 bytes while Racing:
it stores the scaled speed, records a lap when a previous pass instant
exists (finishing when the target is reached), and re-arms the pass
instant. -/
def RaceGame.handle_event (s : RaceState) (char : Characteristic) (data : List ℕ)
    (now : ℚ) : RaceState :=
  match char with
  | .event2 =>
    if 7 ≤ data.length then { s with current_car_uid := some (formatUid data) }
    else if data.length = 0 then { s with current_car_uid := none }
    else s
  | .serial_number =>
    if 0 < data.length then { s with current_car_serial := some (utf8DecodeReplace data) }
    else s
  | .event3 =>
    if 4 ≤ data.length ∧ s.state = .racing then
      let speed := float32OfBytesLE data
      let s1 := { s with last_speed := speed * 64 }
      let s2 :=
        match s1.last_lap_time with
        | none => s1
        | some prev =>
          let lap_time := now - prev
          let s3 :=
            { s1 with
              lap_times := s1.lap_times ++ [lap_time]
              current_lap := s1.current_lap + 1 }
          if s3.target_laps ≤ s3.current_lap then RaceGame.finish_race s3 else s3
      { s2 with last_lap_time := some now, needs_refresh := true }
    else s
  | _ => s

/-- Feeds a sequence of (payload, instant) speed notifications to the race
handler. -/
def RaceGame.feed_speed (s : RaceState) (samples : List (List ℕ × ℚ)) : RaceState :=
  samples.foldl (fun st p => RaceGame.handle_event st .event3 p.1 p.2) s

/-- Synchronous effect of entering the countdown (RaceGame.run_countdown
sets the Countdown state; its timed completion is start_race). -/
def enterCountdown (s : RaceState) : RaceState :=
  { s with state := .countdown }

/-- Embedding of RaceGame.process_key; `none` models the KeyboardInterrupt
raised by quitting.  Unrecognized keys for the current state change
nothing. -/
def RaceGame.process_key (s : RaceState) (key : Char) : Option RaceState :=
  match s.state with
  | .menu =>
    if key = '1' then some (enterCountdown { s with target_laps := 5 })
    else if key = '2' then some (enterCountdown { s with target_laps := 10 })
    else if key = '3' then some (enterCountdown { s with target_laps := 15 })
    else if key = '4' then some (enterCountdown { s with target_laps := 20 })
    else if key = 'c' then some (enterCountdown { s with target_laps := 10 })
    else if key = 'l' then some { s with state := .leaderboard }
    else if key = 'q' then none
    else some s
  | .finished =>
    if key = 'n' then
      some
        { s with
          player_count := s.player_count + 1
          current_player := strPlayer ++ toString (s.player_count + 1)
          state := .menu }
    else if key = 'r' then some (enterCountdown s)
    else if key = 'l' then some { s with state := .leaderboard }
    else if key = 'm' then some { s with state := .menu }
    else some s
  | .leaderboard =>
    if key = 'm' then some { s with state := .menu }
    else if key = 'c' then some { s with results := [] }
    else some s
  | _ => some s

/-- Ordering of race results by total time, the sort key of the leaderboard
display (`sorted(self.results, key=lambda r: r.total_time)`). -/
def byTotal (a b : RaceResult) : Prop :=
  a.total_time ≤ b.total_time

instance : DecidableRel byTotal := fun a b =>
  inferInstanceAs (Decidable (a.total_time ≤ b.total_time))

instance : IsTotal RaceResult byTotal :=
  ⟨fun a b => le_total a.total_time b.total_time⟩

instance : IsTrans RaceResult byTotal :=
  ⟨fun _ _ _ hab hbc => le_trans hab hbc⟩

/-- Ranking of stored results: Python's stable `sorted` by total time,
modelled by insertion sort with `byTotal` (proved sorted and stable below,
which characterizes the stable sort uniquely). -/
def sortResults (l : List RaceResult) : List RaceResult :=
  l.insertionSort byTotal

/-- The displayed leaderboard rows: the first 10 of the ranking
(`sorted_results[:10]`). -/
def leaderboardTop (l : List RaceResult) : List RaceResult :=
  (sortResults l).take 10

/-- Embedding of the dashboard.CarStats dataclass.  `best_lap` starts at
`float('inf')`, modelled by `none` (no finite value is ever compared above
it). -/
structure CarStats where
  nfc_uid : String
  serial : String
  name : String
  laps : ℕ
  speeds : List ℚ
  lap_times : List ℚ
  best_speed : ℚ
  best_lap : Option ℚ
  last_seen : ℚ
deriving DecidableEq

/-- Fresh CarStats record as created by Dashboard.get_car. -/
def CarStats.new (uid : String) (now : ℚ) : CarStats where
  nfc_uid := uid
  serial := ""
  name := ""
  laps := 0
  speeds := []
  lap_times := []
  best_speed := 0
  best_lap := none
  last_seen := now

/-- One entry of Dashboard.recent_passes (the per-pass dict). -/
structure PassRecord where
  time : ℚ
  car : String
  speed : ℚ
  lap_time : Option ℚ
deriving DecidableEq

/-- Mutable state of dashboard.Dashboard, without the presentation-only
console handle, status string and connection flag.  The Python object
reference `current_car` into `car_database` is modelled by the car's uid
key. -/
structure DashState where
  current_car : Option String
  car_database : List (String × CarStats)
  last_pass_time : Option ℚ
  total_passes : ℕ
  recent_passes : List PassRecord
deriving DecidableEq

/-- Initial Dashboard state (Dashboard.__init__). -/
def initDash : DashState where
  current_car := none
  car_database := []
  last_pass_time := none
  total_passes := 0
  recent_passes := []

/-- Dictionary lookup in the car database. -/
def dbLookup (db : List (String × CarStats)) (uid : String) : Option CarStats :=
  (db.find? fun p => p.1 = uid).map Prod.snd

/-- In-place mutation of the car registered under `uid` (Python mutates the
shared CarStats object; here the keyed entry is rewritten). -/
def dbUpdate (db : List (String × CarStats)) (uid : String) (f : CarStats → CarStats) :
    List (String × CarStats) :=
  db.map fun p => if p.1 = uid then (p.1, f p.2) else p

/-- Comparison `x < best_lap` against the `float('inf')` sentinel: every
finite value is below infinity. -/
def ltBestLap (x : ℚ) : Option ℚ → Prop
  | none => True
  | some b => x < b

instance (x : ℚ) (o : Option ℚ) : Decidable (ltBestLap x o) := by
  cases o <;> simp [ltBestLap] <;> infer_instance

/-- Embedding of Dashboard.get_car: get-or-create semantics keyed by the
exact uid string. -/
def Dashboard.get_car (s : DashState) (uid : String) (now : ℚ) : DashState :=
  if (dbLookup s.car_database uid).isSome then s
  else { s with car_database := s.car_database ++ [(uid, CarStats.new uid now)] }

/-- Label stored in a pass record: `self.current_car.nfc_uid[:8]` when a car
is active, else the unknown label. -/
def carLabel (current_car : Option String) : String :=
  match current_car with
  | some uid => uid.take 8
  | none => strUnknown

/-- Embedding of Dashboard.handle_event.  The speed branch mirrors the
source order: derive the optional lap time from the previous pass instant,
re-arm it, count the pass, mutate the active car's aggregates (Python
truthiness: a lap time of exactly 0.0 is falsy and skips the best-lap update
and the lap-time append), then push the pass record into the 10-deep
recent-history buffer (`self.recent_passes[-10:]`). -/
def Dashboard.handle_event (s : DashState) (char : Characteristic) (data : List ℕ)
    (now : ℚ) : DashState :=
  match char with
  | .event2 =>
    if 7 ≤ data.length then
      let uid := formatUid data
      let s1 := Dashboard.get_car s uid now
      { s1 with
        current_car := some uid
        car_database := dbUpdate s1.car_database uid fun c => { c with last_seen := now } }
    else if data.length = 0 then { s with current_car := none }
    else s
  | .serial_number =>
    if 0 < data.length then
      match s.current_car with
      | some uid =>
        { s with
          car_database :=
            dbUpdate s.car_database uid fun c => { c with serial := utf8DecodeReplace data } }
      | none => s
    else s
  | .event3 =>
    if 4 ≤ data.length then
      let scale_speed := float32OfBytesLE data * 64
      let lap_time : Option ℚ :=
        match s.last_pass_time with
        | some t => some (now - t)
        | none => none
      let s1 := { s with last_pass_time := some now, total_passes := s.total_passes + 1 }
      let s2 :=
        match s1.current_car with
        | some uid =>
          { s1 with
            car_database :=
              dbUpdate s1.car_database uid fun c =>
                let c1 := { c with speeds := c.speeds ++ [scale_speed], laps := c.laps + 1 }
                let c2 :=
                  if c1.best_speed < scale_speed then { c1 with best_speed := scale_speed }
                  else c1
                let c3 :=
                  match lap_time with
                  | some lt =>
                    if lt ≠ 0 ∧ ltBestLap lt c2.best_lap then { c2 with best_lap := some lt }
                    else c2
                  | none => c2
                match lap_time with
                | some lt => if lt ≠ 0 then { c3 with lap_times := c3.lap_times ++ [lt] } else c3
                | none => c3 }
        | none => s1
      let rec_entry : PassRecord :=
        { time := now
          car := carLabel s.current_car
          speed := scale_speed
          lap_time := lap_time }
      { s2 with
        recent_passes :=
          (s2.recent_passes ++ [rec_entry]).drop (s2.recent_passes.length + 1 - 10) }
    else s
  | _ => s

/-- Feeds a sequence of (payload, instant) speed notifications to the
dashboard handler. -/
def Dashboard.feed_speed (s : DashState) (samples : List (List ℕ × ℚ)) : DashState :=
  samples.foldl (fun st p => Dashboard.handle_event st .event3 p.1 p.2) s

/-- Leaderboard example fixture: a one-lap result whose total time is `t`. -/
def exampleResult (t : ℚ) : RaceResult :=
  ⟨strUnknown, strUnknown, 1, [t], t, t, 1, t, 1, t⟩

/-- Stability of `List.orderedInsert` with respect to the total-time key:
inserting an element commutes with filtering on any fixed key value. -/
theorem orderedInsert_filter_key (t : ℚ) (a : RaceResult) (l : List RaceResult) :
    (List.orderedInsert byTotal a l).filter (fun r => decide (r.total_time = t)) =
      if a.total_time = t then
        a :: l.filter (fun r => decide (r.total_time = t))
      else l.filter (fun r => decide (r.total_time = t)) := by
  induction l with
  | nil => simp [List.orderedInsert, List.filter]; split_ifs <;> simp_all
  | cons b l ih =>
    by_cases hab : byTotal a b
    · rw [List.orderedInsert, if_pos hab]
      simp only [List.filter]
      split_ifs <;> simp_all
    · rw [List.orderedInsert, if_neg hab]
      have hba : b.total_time < a.total_time := lt_of_not_le hab
      by_cases hbt : b.total_time = t
      · by_cases hat : a.total_time = t
        · exact absurd hba (by rw [hat, hbt]; exact lt_irrefl t)
        · simp [List.filter, hbt, hat, ih]
      · simp [List.filter, hbt, ih]

/-- Stability of the ranking: for every key value, the subsequence of results
with that total time is preserved (ties keep insertion order). -/
theorem sortResults_filter_key (t : ℚ) (l : List RaceResult) :
    (sortResults l).filter (fun r => decide (r.total_time = t)) =
      l.filter (fun r => decide (r.total_time = t)) := by
  induction l with
  | nil => rfl
  | cons a l ih =>
    rw [sortResults, List.insertionSort]
    rw [show List.insertionSort byTotal l = sortResults l from rfl] at *
    rw [orderedInsert_filter_key]
    by_cases hat : a.total_time = t
    · simp [List.filter, hat, ih]
    · simp [List.filter, hat, ih]

/-- The ranking is sorted ascending by total time. -/
theorem sortResults_sorted (l : List RaceResult) : List.Sorted byTotal (sortResults l) :=
  List.sorted_insertionSort byTotal l

/-- The ranking is a permutation of the stored results. -/
theorem sortResults_perm (l : List RaceResult) : List.Perm (sortResults l) l :=
  List.perm_insertionSort byTotal l

/-- A left `min`-fold is bounded by its initial value. -/
theorem foldl_min_le_init (xs : List ℚ) (x : ℚ) : xs.foldl min x ≤ x := by
  induction xs generalizing x with
  | nil => exact le_refl x
  | cons y ys ih => exact le_trans (ih (min x y)) (min_le_left x y)

/-- A left `min`-fold is bounded by every list element. -/
theorem foldl_min_le_mem (xs : List ℚ) (x : ℚ) : ∀ y ∈ xs, xs.foldl min x ≤ y := by
  induction xs generalizing x with
  | nil => intro y hy; cases hy
  | cons z zs ih =>
    intro y hy
    rcases List.mem_cons.mp hy with h | h
    · subst h
      exact le_trans (foldl_min_le_init zs (min x y)) (min_le_right x y)
    · exact ih (min x z) y h

/-- A left `min`-fold returns its initial value or a list element. -/
theorem foldl_min_mem (xs : List ℚ) (x : ℚ) : xs.foldl min x = x ∨ xs.foldl min x ∈ xs := by
  induction xs generalizing x with
  | nil => exact Or.inl rfl
  | cons y ys ih =>
    rcases ih (min x y) with h | h
    · rcases min_choice x y with hm | hm
      · exact Or.inl (by rw [List.foldl, h, hm])
      · exact Or.inr (by rw [List.foldl, h, hm]; exact List.mem_cons_self y ys)
    · exact Or.inr (List.mem_cons_of_mem y h)

/-- `listMin` of a non-empty list is one of its elements. -/
theorem listMin_mem (l : List ℚ) (h : l ≠ []) : listMin l ∈ l := by
  cases l with
  | nil => exact absurd rfl h
  | cons x xs =>
    rcases foldl_min_mem xs x with h1 | h1
    · rw [listMin, h1]; exact List.mem_cons_self x xs
    · exact List.mem_cons_of_mem x h1

/-- `listMin` is a lower bound of the list. -/
theorem listMin_le (l : List ℚ) : ∀ y ∈ l, listMin l ≤ y := by
  cases l with
  | nil => intro y hy; cases hy
  | cons x xs =>
    intro y hy
    rcases List.mem_cons.mp hy with h | h
    · subst h; exact foldl_min_le_init xs y
    · exact foldl_min_le_mem xs x y h

/-- A left `max`-fold dominates its initial value. -/
theorem foldl_max_ge_init (xs : List ℚ) (x : ℚ) : x ≤ xs.foldl max x := by
  induction xs generalizing x with
  | nil => exact le_refl x
  | cons y ys ih => exact le_trans (le_max_left x y) (ih (max x y))

/-- A left `max`-fold dominates every list element. -/
theorem foldl_max_ge_mem (xs : List ℚ) (x : ℚ) : ∀ y ∈ xs, y ≤ xs.foldl max x := by
  induction xs generalizing x with
  | nil => intro y hy; cases hy
  | cons z zs ih =>
    intro y hy
    rcases List.mem_cons.mp hy with h | h
    · subst h
      exact le_trans (le_max_right x y) (foldl_max_ge_init zs (max x y))
    · exact ih (max x z) y h

/-- A left `max`-fold returns its initial value or a list element. -/
theorem foldl_max_mem (xs : List ℚ) (x : ℚ) : xs.foldl max x = x ∨ xs.foldl max x ∈ xs := by
  induction xs generalizing x with
  | nil => exact Or.inl rfl
  | cons y ys ih =>
    rcases ih (max x y) with h | h
    · rcases max_choice x y with hm | hm
      · exact Or.inl (by rw [List.foldl, h, hm])
      · exact Or.inr (by rw [List.foldl, h, hm]; exact List.mem_cons_self y ys)
    · exact Or.inr (List.mem_cons_of_mem y h)

/-- `listMax` of a non-empty list is one of its elements. -/
theorem listMax_mem (l : List ℚ) (h : l ≠ []) : listMax l ∈ l := by
  cases l with
  | nil => exact absurd rfl h
  | cons x xs =>
    rcases foldl_max_mem xs x with h1 | h1
    · rw [listMax, h1]; exact List.mem_cons_self x xs
    · exact List.mem_cons_of_mem x h1

/-- `listMax` is an upper bound of the list. -/
theorem le_listMax (l : List ℚ) : ∀ y ∈ l, y ≤ listMax l := by
  cases l with
  | nil => intro y hy; cases hy
  | cons x xs =>
    intro y hy
    rcases List.mem_cons.mp hy with h | h
    · subst h; exact foldl_max_ge_init xs y
    · exact foldl_max_ge_mem xs x y h

/-- The first-occurrence index of a member is within bounds. -/
theorem idx_of_lt_length (a : ℚ) (l : List ℚ) (h : a ∈ l) : idx_of a l < l.length := by
  induction l with
  | nil => cases h
  | cons x xs ih =>
    rw [idx_of]
    by_cases hx : x = a
    · simp [hx]
    · rw [if_neg hx]
      have : a ∈ xs := by
        rcases List.mem_cons.mp h with h1 | h1
        · exact absurd h1.symm hx
        · exact h1
      simpa [List.length_cons] using ih this

/-- The element at the first-occurrence index is the sought value. -/
theorem get_idx_of (a : ℚ) (l : List ℚ) (h : a ∈ l) : l.get? (idx_of a l) = some a := by
  induction l with
  | nil => cases h
  | cons x xs ih =>
    rw [idx_of]
    by_cases hx : x = a
    · simp [hx]
    · rw [if_neg hx]
      have : a ∈ xs := by
        rcases List.mem_cons.mp h with h1 | h1
        · exact absurd h1.symm hx
        · exact h1
      simpa using ih this

/-- No position before the first-occurrence index holds the sought value. -/
theorem idx_of_first (a : ℚ) (l : List ℚ) :
    ∀ i, i < idx_of a l → l.get? i ≠ some a := by
  induction l with
  | nil => intro i hi; rw [idx_of] at hi; omega
  | cons x xs ih =>
    intro i hi
    rw [idx_of] at hi
    by_cases hx : x = a
    · rw [if_pos hx] at hi; omega
    · rw [if_neg hx] at hi
      cases i with
      | zero => simpa using fun h => hx h
      | succ j =>
        have := ih j (by omega)
        simpa using this

/-- A speed notification outside the Racing state leaves the race state
untouched (the guard combines payload length and state). -/
theorem handle_speed_not_racing (s : RaceState) (d : List ℕ) (now : ℚ)
    (h : s.state ≠ .racing) :
    RaceGame.handle_event s .event3 d now = s := by
  rw [RaceGame.handle_event]
  rw [if_neg (by intro hc; exact h hc.2)]

/-- The first speed sample while Racing (no previous pass instant) records no
lap: it only stores the speed and arms the pass instant. -/
theorem handle_speed_first (s : RaceState) (d : List ℕ) (now : ℚ)
    (h4 : 4 ≤ d.length) (hr : s.state = .racing) (hl : s.last_lap_time = none) :
    RaceGame.handle_event s .event3 d now =
      { s with
        last_speed := float32OfBytesLE d * 64
        last_lap_time := some now
        needs_refresh := true } := by
  rw [RaceGame.handle_event]
  rw [if_pos ⟨h4, hr⟩]
  simp only [hl]

/-- A speed sample while Racing with an armed pass instant, short of the
target, appends one lap and increments the counter. -/
theorem handle_speed_lap (s : RaceState) (d : List ℕ) (now t : ℚ)
    (h4 : 4 ≤ d.length) (hr : s.state = .racing) (hl : s.last_lap_time = some t)
    (hlt : s.current_lap + 1 < s.target_laps) :
    RaceGame.handle_event s .event3 d now =
      { s with
        last_speed := float32OfBytesLE d * 64
        lap_times := s.lap_times ++ [now - t]
        current_lap := s.current_lap + 1
        last_lap_time := some now
        needs_refresh := true } := by
  rw [RaceGame.handle_event]
  rw [if_pos ⟨h4, hr⟩]
  simp only [hl]
  rw [if_neg (by simp; omega)]

/-- A speed sample while Racing whose lap reaches the target finalizes the
race: Finished state, incremented lap counter, exactly one appended
result. -/
theorem handle_speed_finish (s : RaceState) (d : List ℕ) (now t : ℚ)
    (h4 : 4 ≤ d.length) (hr : s.state = .racing) (hl : s.last_lap_time = some t)
    (hge : s.target_laps ≤ s.current_lap + 1) :
    (RaceGame.handle_event s .event3 d now).state = .finished ∧
      (RaceGame.handle_event s .event3 d now).current_lap = s.current_lap + 1 ∧
      (RaceGame.handle_event s .event3 d now).results.length = s.results.length + 1 := by
  rw [RaceGame.handle_event]
  rw [if_pos ⟨h4, hr⟩]
  simp only [hl]
  rw [if_pos (by simpa using hge)]
  rw [RaceGame.finish_race]
  rw [if_neg (by simp)]
  simp

/-- Unfolding of the sample fold on a cons cell. -/
theorem feed_speed_cons (s : RaceState) (p : List ℕ × ℚ) (rest : List (List ℕ × ℚ)) :
    RaceGame.feed_speed s (p :: rest) =
      RaceGame.feed_speed (RaceGame.handle_event s .event3 p.1 p.2) rest := rfl

/-- Unfolding of the sample fold on the empty list. -/
theorem feed_speed_nil (s : RaceState) : RaceGame.feed_speed s [] = s := rfl

/-- Invariant of feeding speed samples from a Racing state with an armed
pass instant while staying strictly below the target: the machine remains
Racing, each sample is a lap boundary, and no result is emitted. -/
theorem feed_speed_racing_inv (samples : List (List ℕ × ℚ)) :
    ∀ (s : RaceState) (t : ℚ), s.state = .racing → s.last_lap_time = some t →
      (∀ p ∈ samples, 4 ≤ p.1.length) →
      s.current_lap + samples.length < s.target_laps →
      (RaceGame.feed_speed s samples).state = .racing ∧
        (RaceGame.feed_speed s samples).current_lap = s.current_lap + samples.length ∧
        (RaceGame.feed_speed s samples).target_laps = s.target_laps ∧
        (RaceGame.feed_speed s samples).results = s.results ∧
        ∃ u, (RaceGame.feed_speed s samples).last_lap_time = some u := by
  induction samples with
  | nil =>
    intro s t hr hl _ _
    exact ⟨hr, by simp [feed_speed_nil], rfl, rfl, ⟨t, hl⟩⟩
  | cons p rest ih =>
    intro s t hr hl hlen hbound
    have h4 : 4 ≤ p.1.length := hlen p (List.mem_cons_self p rest)
    have hstep := handle_speed_lap s p.1 p.2 t h4 hr hl
      (by simp only [List.length_cons] at hbound; omega)
    rw [feed_speed_cons, hstep]
    have := ih { s with
        last_speed := float32OfBytesLE p.1 * 64
        lap_times := s.lap_times ++ [p.2 - t]
        current_lap := s.current_lap + 1
        last_lap_time := some p.2
        needs_refresh := true } p.2 hr rfl
      (fun q hq => hlen q (List.mem_cons_of_mem p hq))
      (by simp only [List.length_cons] at hbound; simpa using by omega)
    obtain ⟨a1, a2, a3, a4, a5⟩ := this
    refine ⟨a1, ?_, a3, a4, a5⟩
    rw [a2]
    simp [List.length_cons]
    omega

/-- Looking up the updated key returns the mutated record. -/
theorem dbLookup_dbUpdate (db : List (String × CarStats)) (uid : String)
    (f : CarStats → CarStats) :
    dbLookup (dbUpdate db uid f) uid = (dbLookup db uid).map f := by
  induction db with
  | nil => rfl
  | cons p db ih =>
    by_cases h : p.1 = uid
    · simp [dbLookup, dbUpdate, List.find?, h]
    · have hhead : (if p.1 = uid then (p.1, f p.2) else p) = p := if_neg h
      simp only [dbLookup, dbUpdate, List.map] at ih ⊢
      rw [hhead, List.find?_cons_of_neg _ (by simp [h]), List.find?_cons_of_neg _ (by simp [h])]
      exact ih

/-- Effect of one speed notification on the dashboard's pass tracking: the
new pass record (optional lap duration measured from the previous pass
instant) is appended, the pass instant re-armed, the pass counter
incremented, and the buffer truncated to its last 10 entries. -/
theorem dash_pass_record (s : DashState) (d : List ℕ) (now : ℚ) (h4 : 4 ≤ d.length) :
    (Dashboard.handle_event s .event3 d now).recent_passes =
        (s.recent_passes ++
            [({ time := now
                car := carLabel s.current_car
                speed := float32OfBytesLE d * 64
                lap_time := s.last_pass_time.map fun t => now - t } : PassRecord)]).drop
          (s.recent_passes.length + 1 - 10) ∧
      (Dashboard.handle_event s .event3 d now).last_pass_time = some now ∧
      (Dashboard.handle_event s .event3 d now).total_passes = s.total_passes + 1 := by
  rw [Dashboard.handle_event]
  rw [if_pos h4]
  cases hc : s.current_car <;> cases hl : s.last_pass_time <;> simp [hc, hl, carLabel]

/-- C1 (amended): entering Racing via start_race (which clears the session
pass instant) with target N ≥ 1 and feeding N+1 speed samples finishes the
race exactly once: the first sample only arms the lap timer, every later
sample is a lap boundary, every proper prefix of at most N samples leaves
the machine Racing with current_lap one less than the number of samples,
and the (N+1)-th sample yields current_lap = N, the Finished state and
exactly one appended result. -/
theorem hw_c1_race_lap_counting (N : ℕ) (hN : 1 ≤ N) (s : RaceState) (now0 : ℚ)
    (samples : List (List ℕ × ℚ)) (htarget : s.target_laps = N)
    (hlen : samples.length = N + 1) (h4 : ∀ p ∈ samples, 4 ≤ p.1.length) :
    (RaceGame.feed_speed (RaceGame.start_race s now0) samples).state = .finished ∧
      (RaceGame.feed_speed (RaceGame.start_race s now0) samples).current_lap = N ∧
      (RaceGame.feed_speed (RaceGame.start_race s now0) samples).results.length =
        s.results.length + 1 ∧
      ∀ k, k ≤ N →
        (RaceGame.feed_speed (RaceGame.start_race s now0) (samples.take k)).state = .racing ∧
          (RaceGame.feed_speed (RaceGame.start_race s now0) (samples.take k)).current_lap =
            k - 1 := by
  cases samples with
  | nil => simp at hlen
  | cons p0 rest =>
    have hrest : rest.length = N := by simpa using hlen
    set s0 := RaceGame.start_race s now0 with hs0
    have hs0r : s0.state = .racing := rfl
    have hs0l : s0.last_lap_time = none := rfl
    have h40 : 4 ≤ p0.1.length := h4 p0 (List.mem_cons_self p0 rest)
    have hstep1 := handle_speed_first s0 p0.1 p0.2 h40 hs0r hs0l
    set s1 : RaceState :=
      { s0 with
        last_speed := float32OfBytesLE p0.1 * 64
        last_lap_time := some p0.2
        needs_refresh := true } with hs1
    have hs1r : s1.state = .racing := rfl
    have hs1lap : s1.current_lap = 0 := rfl
    have hs1t : s1.target_laps = N := htarget
    have hs1res : s1.results = s.results := rfl
    have hfeed : RaceGame.feed_speed s0 (p0 :: rest) = RaceGame.feed_speed s1 rest := by
      rw [feed_speed_cons, hstep1]
    rcases List.eq_nil_or_concat rest with hcat | ⟨mid, plast, hcat⟩
    · rw [hcat] at hrest; simp at hrest; omega
    · rw [List.concat_eq_append] at hcat
      have hmidlen : mid.length = N - 1 := by
        rw [hcat] at hrest; simp at hrest; omega
      have hmid4 : ∀ q ∈ mid, 4 ≤ q.1.length := by
        intro q hq
        exact h4 q (List.mem_cons_of_mem p0 (hcat ▸ List.mem_append_left [plast] hq))
      have hinv := feed_speed_racing_inv mid s1 p0.2 hs1r rfl hmid4
        (by rw [hs1lap, hs1t, hmidlen]; omega)
      obtain ⟨m1, m2, m3, m4, u, m5⟩ := hinv
      have hlast4 : 4 ≤ plast.1.length := by
        refine h4 plast (List.mem_cons_of_mem p0 ?_)
        rw [hcat]; exact List.mem_append_right mid (List.mem_cons_self plast [])
      have hfin := handle_speed_finish (RaceGame.feed_speed s1 mid) plast.1 plast.2 u
        hlast4 m1 m5 (by rw [m3, m2, hs1lap, hs1t, hmidlen]; omega)
      have hsplit : RaceGame.feed_speed s1 rest =
          RaceGame.handle_event (RaceGame.feed_speed s1 mid) .event3 plast.1 plast.2 := by
        rw [hcat, RaceGame.feed_speed, List.foldl_append]
        rfl
      refine ⟨?_, ?_, ?_, ?_⟩
      · rw [hfeed, hsplit]; exact hfin.1
      · rw [hfeed, hsplit, hfin.2.1, m2, hs1lap, hmidlen]; omega
      · rw [hfeed, hsplit, hfin.2.2, m4, hs1res]
      · intro k hk
        cases k with
        | zero => exact ⟨hs0r, rfl⟩
        | succ j =>
          have htake : (p0 :: rest).take (j + 1) = p0 :: rest.take j := rfl
          have htk : RaceGame.feed_speed s0 ((p0 :: rest).take (j + 1)) =
              RaceGame.feed_speed s1 (rest.take j) := by
            rw [htake, feed_speed_cons, hstep1]
          have hjlen : (rest.take j).length = j := by
            rw [List.length_take]; omega
          have hj4 : ∀ q ∈ rest.take j, 4 ≤ q.1.length := fun q hq =>
            h4 q (List.mem_cons_of_mem p0 (List.mem_of_mem_take hq))
          have hji := feed_speed_racing_inv (rest.take j) s1 p0.2 hs1r rfl hj4
            (by rw [hs1lap, hs1t, hjlen]; omega)
          refine ⟨by rw [htk]; exact hji.1, ?_⟩
          rw [htk, hji.2.1, hs1lap, hjlen]
          omega

/-- C1 counterexample: with target_lap_count 3, feeding exactly 3 speed
samples after start_race leaves current_lap at 2 (not 3) and the machine
still Racing (not Finished), refuting the claim as stated. -/
theorem hw_c1_counterexample :
    (RaceGame.feed_speed (RaceGame.start_race { initRace with target_laps := 3 } 0)
          [([0, 0, 0, 0], 1), ([0, 0, 0, 0], 2), ([0, 0, 0, 0], 3)]).current_lap = 2 ∧
      (RaceGame.feed_speed (RaceGame.start_race { initRace with target_laps := 3 } 0)
          [([0, 0, 0, 0], 1), ([0, 0, 0, 0], 2), ([0, 0, 0, 0], 3)]).state =
        GameState.racing ∧
      (2 : ℕ) ≠ 3 ∧ GameState.racing ≠ GameState.finished := by
  exact ⟨rfl, rfl, by decide, by decide⟩

/-- C1 witness: the amended theorem instantiated at target 1 with 2 samples. -/
theorem hw_c1_witness :
    (RaceGame.feed_speed (RaceGame.start_race { initRace with target_laps := 1 } 0)
          [([0, 0, 0, 0], 1), ([0, 0, 0, 0], 2)]).state = .finished ∧
      (RaceGame.feed_speed (RaceGame.start_race { initRace with target_laps := 1 } 0)
          [([0, 0, 0, 0], 1), ([0, 0, 0, 0], 2)]).current_lap = 1 ∧
      (RaceGame.feed_speed (RaceGame.start_race { initRace with target_laps := 1 } 0)
          ([([0, 0, 0, 0], 1), ([0, 0, 0, 0], 2)].take 1)).state = .racing := by
  have h := hw_c1_race_lap_counting 1 (by decide) { initRace with target_laps := 1 } 0
    [([0, 0, 0, 0], 1), ([0, 0, 0, 0], 2)] rfl rfl (by decide)
  exact ⟨h.1, h.2.1, (h.2.2.2 1 (by decide)).1⟩

/-- C2: finalizing a race with a non-empty lap list appends exactly one
result and enters Finished; the result's total is the sum of the durations,
best/worst lap are the minimum/maximum paired with the 1-based index of
their first occurrence, and the average is the total divided by the lap
count; for durations [4, 2, 6] this gives best (2, lap 2), worst (6, lap 3),
total 12, average 4. -/
theorem hw_c2_finalization (s : RaceState) (h : s.lap_times ≠ []) :
    ((RaceGame.finish_race s).results = s.results ++ [finish_result s] ∧
        (RaceGame.finish_race s).state = .finished ∧
        (finish_result s).total_time = s.lap_times.sum ∧
        (finish_result s).avg_lap = s.lap_times.sum / (s.lap_times.length : ℚ) ∧
        (finish_result s).best_lap ∈ s.lap_times ∧
        (∀ x ∈ s.lap_times, (finish_result s).best_lap ≤ x) ∧
        s.lap_times.get? ((finish_result s).best_lap_num - 1) = some (finish_result s).best_lap ∧
        (∀ i, i < (finish_result s).best_lap_num - 1 →
          s.lap_times.get? i ≠ some (finish_result s).best_lap) ∧
        (finish_result s).worst_lap ∈ s.lap_times ∧
        (∀ x ∈ s.lap_times, x ≤ (finish_result s).worst_lap) ∧
        s.lap_times.get? ((finish_result s).worst_lap_num - 1) =
          some (finish_result s).worst_lap ∧
        (∀ i, i < (finish_result s).worst_lap_num - 1 →
          s.lap_times.get? i ≠ some (finish_result s).worst_lap) ∧
        1 ≤ (finish_result s).best_lap_num ∧
        (finish_result s).best_lap_num ≤ s.lap_times.length ∧
        1 ≤ (finish_result s).worst_lap_num ∧
        (finish_result s).worst_lap_num ≤ s.lap_times.length) ∧
      (finish_result { initRace with lap_times := [4, 2, 6] }).best_lap = 2 ∧
      (finish_result { initRace with lap_times := [4, 2, 6] }).best_lap_num = 2 ∧
      (finish_result { initRace with lap_times := [4, 2, 6] }).worst_lap = 6 ∧
      (finish_result { initRace with lap_times := [4, 2, 6] }).worst_lap_num = 3 ∧
      (finish_result { initRace with lap_times := [4, 2, 6] }).total_time = 12 ∧
      (finish_result { initRace with lap_times := [4, 2, 6] }).avg_lap = 4 := by
  have hbm : listMin s.lap_times ∈ s.lap_times := listMin_mem s.lap_times h
  have hwm : listMax s.lap_times ∈ s.lap_times := listMax_mem s.lap_times h
  constructor
  · refine ⟨?_, ?_, rfl, rfl, ?_, ?_, ?_, ?_, ?_, ?_, ?_, ?_, ?_, ?_, ?_, ?_⟩
    · rw [RaceGame.finish_race, if_neg h]
    · rw [RaceGame.finish_race, if_neg h]
    · exact hbm
    · exact listMin_le s.lap_times
    · simpa [finish_result] using get_idx_of (listMin s.lap_times) s.lap_times hbm
    · intro i hi
      simp only [finish_result] at hi ⊢
      exact idx_of_first (listMin s.lap_times) s.lap_times i (by omega)
    · exact hwm
    · exact le_listMax s.lap_times
    · simpa [finish_result] using get_idx_of (listMax s.lap_times) s.lap_times hwm
    · intro i hi
      simp only [finish_result] at hi ⊢
      exact idx_of_first (listMax s.lap_times) s.lap_times i (by omega)
    · simp [finish_result]
    · simp only [finish_result]
      have := idx_of_lt_length (listMin s.lap_times) s.lap_times hbm
      omega
    · simp [finish_result]
    · simp only [finish_result]
      have := idx_of_lt_length (listMax s.lap_times) s.lap_times hwm
      omega
  · norm_num [finish_result, initRace, listMin, listMax, idx_of]

/-- C2 witness: finalization facts at the concrete lap list [4, 2, 6]. -/
theorem hw_c2_witness :
    (RaceGame.finish_race { initRace with lap_times := [4, 2, 6] }).results =
        initRace.results ++ [finish_result { initRace with lap_times := [4, 2, 6] }] ∧
      (RaceGame.finish_race { initRace with lap_times := [4, 2, 6] }).state = .finished ∧
      (finish_result { initRace with lap_times := [4, 2, 6] }).total_time =
        ([4, 2, 6] : List ℚ).sum ∧
      (finish_result { initRace with lap_times := [4, 2, 6] }).best_lap = 2 := by
  have h := hw_c2_finalization { initRace with lap_times := [4, 2, 6] } (by simp)
  exact ⟨h.1.1, h.1.2.1, h.1.2.2.1, h.2.1⟩

/-- C3 (amended): a speed notification that arrives in any state other than
Racing changes nothing at all in the race state; in particular the
last-observed-speed display value is not updated either, because the speed
assignment sits inside the Racing guard. -/
theorem hw_c3_speed_outside_racing (s : RaceState) (d : List ℕ) (now : ℚ)
    (h4 : 4 ≤ d.length) (h : s.state ≠ .racing) :
    RaceGame.handle_event s .event3 d now = s :=
  handle_speed_not_racing s d now h

/-- C3 counterexample: in the Menu state a 4-byte speed sample encoding 1.0
(scaled display value 64) leaves the state identical, with last_speed still
0 rather than the updated display value 64 that the claim asserts. -/
theorem hw_c3_counterexample :
    RaceGame.handle_event initRace .event3 [0, 0, 128, 63] 1 = initRace ∧
      initRace.state ≠ GameState.racing ∧
      float32OfBytesLE [0, 0, 128, 63] * 64 = 64 ∧
      (RaceGame.handle_event initRace .event3 [0, 0, 128, 63] 1).last_speed ≠ 64 := by
  refine ⟨rfl, by decide, by norm_num [float32OfBytesLE], ?_⟩
  show (0 : ℚ) ≠ 64
  norm_num

/-- C3 witness: the amended theorem instantiated in the Menu state. -/
theorem hw_c3_witness :
    RaceGame.handle_event initRace .event3 [0, 0, 0, 0] 0 = initRace :=
  hw_c3_speed_outside_racing initRace [0, 0, 0, 0] 0 (by decide) (by decide)

/-- C4: for every channel, a payload shorter than the channel's minimum
length (7 detection, 4 speed, 10 NDEF identity, 5 control-status) decodes to
the raw/empty fallback variant; the decoders are total functions, so no
exception is possible. -/
theorem hw_c4_short_payload_fallback :
    (∀ d : List ℕ, d.length < 7 → decode_car_event d = .raw (bytesHex d)) ∧
      (∀ d : List ℕ, d.length < 4 → decode_speed_event d = .raw (bytesHex d)) ∧
      (∀ d : List ℕ, d.length < 10 →
        decode_ndef_record d = if d.length = 0 then .empty else .raw (bytesHex d)) ∧
      (∀ d : List ℕ, d.length < 5 → decode_control_register d = .raw (bytesHex d)) := by
  refine ⟨?_, ?_, ?_, ?_⟩
  · intro d h; rw [decode_car_event, if_pos h]
  · intro d h; rw [decode_speed_event, if_pos h]
  · intro d h; rw [decode_ndef_record, if_pos h]
  · intro d h; rw [decode_control_register, if_pos h]

/-- C4 witness: the fallback at concrete short payloads on each channel. -/
theorem hw_c4_witness :
    decode_car_event [1, 2] = .raw (bytesHex [1, 2]) ∧
      decode_speed_event [1, 2] = .raw (bytesHex [1, 2]) ∧
      decode_ndef_record [1, 2] =
        (if ([1, 2] : List ℕ).length = 0 then .empty else .raw (bytesHex [1, 2])) ∧
      decode_control_register [1, 2] = .raw (bytesHex [1, 2]) := by
  have h := hw_c4_short_payload_fallback
  exact ⟨h.1 [1, 2] (by decide), h.2.1 [1, 2] (by decide), h.2.2.1 [1, 2] (by decide),
    h.2.2.2 [1, 2] (by decide)⟩

/-- C5: the detection channel is a three-way case split on payload length:
an empty payload clears the current car (CarRemoved), lengths 1-6 change
nothing (and the pure decoder degrades to the raw fallback), and length at
least 7 sets the current car with byte 0 as the type tag and bytes 1-6
rendered as colon-joined upper-case hex pairs; the example payload decodes
to type 0x04 and uid DE:AD:BE:EF:12:34. -/
theorem hw_c5_detection_decode :
    (∀ (s : DashState) (d : List ℕ) (now : ℚ), d.length = 0 →
        Dashboard.handle_event s .event2 d now = { s with current_car := none }) ∧
      (∀ (s : DashState) (d : List ℕ) (now : ℚ), 1 ≤ d.length → d.length ≤ 6 →
        Dashboard.handle_event s .event2 d now = s) ∧
      (∀ (s : DashState) (d : List ℕ) (now : ℚ), 7 ≤ d.length →
        (Dashboard.handle_event s .event2 d now).current_car = some (formatUid d)) ∧
      (∀ d : List ℕ, 1 ≤ d.length → d.length < 7 → decode_car_event d = .raw (bytesHex d)) ∧
      formatUid [4, 222, 173, 190, 239, 18, 52] = "DE:AD:BE:EF:12:34" ∧
      decode_car_event [4, 222, 173, 190, 239, 18, 52] =
        .parsed 4 "DE:AD:BE:EF:12:34" strCarDetected := by
  refine ⟨?_, ?_, ?_, ?_, by decide, by decide⟩
  · intro s d now h
    rw [Dashboard.handle_event]
    rw [if_neg (by omega), if_pos h]
  · intro s d now h1 h6
    rw [Dashboard.handle_event]
    rw [if_neg (by omega), if_neg (by omega)]
  · intro s d now h7
    rw [Dashboard.handle_event]
    rw [if_pos h7]
  · intro d h1 h7
    rw [decode_car_event, if_pos h7]

/-- C5 witness: the three branches at concrete payloads. -/
theorem hw_c5_witness :
    Dashboard.handle_event initDash .event2 [] 0 = { initDash with current_car := none } ∧
      Dashboard.handle_event initDash .event2 [1, 2, 3] 0 = initDash ∧
      (Dashboard.handle_event initDash .event2 [4, 222, 173, 190, 239, 18, 52] 0).current_car =
        some (formatUid [4, 222, 173, 190, 239, 18, 52]) := by
  have h := hw_c5_detection_decode
  exact ⟨h.1 initDash [] 0 (by decide), h.2.1 initDash [1, 2, 3] 0 (by decide) (by decide),
    h.2.2.1 initDash [4, 222, 173, 190, 239, 18, 52] 0 (by decide)⟩

/-- C6: each speed pass appends a record whose lap duration is `none` for
the first pass (no previous instant) and the difference to the previous
pass instant otherwise; the pass instant is re-armed, the pass counter
incremented, and the recent buffer keeps at most the 10 most recent records
(a suffix of the appended history, oldest evicted).  Feeding passes at
instants 0, 5, 12 yields durations [none, 5, 7]; feeding 11 passes at 0..10
leaves exactly the last 10. -/
theorem hw_c6_pass_tracker :
    (∀ (s : DashState) (d : List ℕ) (now : ℚ), 4 ≤ d.length →
        (Dashboard.handle_event s .event3 d now).recent_passes.getLast? =
            some
              { time := now
                car := carLabel s.current_car
                speed := float32OfBytesLE d * 64
                lap_time := s.last_pass_time.map fun t => now - t } ∧
          (Dashboard.handle_event s .event3 d now).last_pass_time = some now ∧
          (Dashboard.handle_event s .event3 d now).total_passes = s.total_passes + 1 ∧
          (Dashboard.handle_event s .event3 d now).recent_passes.length =
            min (s.recent_passes.length + 1) 10 ∧
          List.IsSuffix (Dashboard.handle_event s .event3 d now).recent_passes
            (s.recent_passes ++
              [{ time := now
                 car := carLabel s.current_car
                 speed := float32OfBytesLE d * 64
                 lap_time := s.last_pass_time.map fun t => now - t }])) ∧
      (Dashboard.feed_speed initDash
            [([0, 0, 0, 0], 0), ([0, 0, 0, 0], 5), ([0, 0, 0, 0], 12)]).recent_passes.map
          PassRecord.lap_time =
        [none, some 5, some 7] ∧
      (Dashboard.feed_speed initDash
            [([0, 0, 0, 0], 0), ([0, 0, 0, 0], 1), ([0, 0, 0, 0], 2), ([0, 0, 0, 0], 3),
              ([0, 0, 0, 0], 4), ([0, 0, 0, 0], 5), ([0, 0, 0, 0], 6), ([0, 0, 0, 0], 7),
              ([0, 0, 0, 0], 8), ([0, 0, 0, 0], 9), ([0, 0, 0, 0], 10)]).recent_passes.map
          PassRecord.time =
        [1, 2, 3, 4, 5, 6, 7, 8, 9, 10] := by
  refine ⟨?_, ?_, ?_⟩
  · intro s d now h4
    obtain ⟨hrec, hlp, htp⟩ := dash_pass_record s d now h4
    have hk : s.recent_passes.length + 1 - 10 ≤ s.recent_passes.length := by omega
    refine ⟨?_, hlp, htp, ?_, ?_⟩
    · rw [hrec, List.drop_append_of_le_length hk, List.getLast?_concat]
    · rw [hrec]
      simp only [List.length_drop, List.length_append, List.length_cons, List.length_nil]
      omega
    · rw [hrec]
      exact List.drop_suffix _ _
  · norm_num [Dashboard.feed_speed, Dashboard.handle_event, initDash, carLabel, strUnknown]
  · norm_num [Dashboard.feed_speed, Dashboard.handle_event, initDash, carLabel, strUnknown]

/-- C6 witness: the per-pass facts at a concrete first pass. -/
theorem hw_c6_witness :
    (Dashboard.handle_event initDash .event3 [0, 0, 0, 0] 0).recent_passes.getLast? =
        some
          { time := 0
            car := carLabel initDash.current_car
            speed := float32OfBytesLE [0, 0, 0, 0] * 64
            lap_time := initDash.last_pass_time.map fun t => 0 - t } ∧
      (Dashboard.handle_event initDash .event3 [0, 0, 0, 0] 0).total_passes =
        initDash.total_passes + 1 := by
  have h := hw_c6_pass_tracker.1 initDash [0, 0, 0, 0] 0 (by decide)
  exact ⟨h.1, h.2.2.1⟩

/-- C7: the leaderboard ranking is sorted ascending by total time, is a
permutation of the stored results, and is stable (filtering on any total
time preserves insertion order); the displayed rows are the first 10 of the
ranking; results with totals 10, 8.5, 12 rank as [8.5, 10, 12]; pressing
the clear key on the leaderboard empties the collection, whose ranking is
then the empty sequence. -/
theorem hw_c7_leaderboard :
    (∀ l : List RaceResult, List.Sorted byTotal (sortResults l)) ∧
      (∀ l : List RaceResult, List.Perm (sortResults l) l) ∧
      (∀ (t : ℚ) (l : List RaceResult),
        (sortResults l).filter (fun r => decide (r.total_time = t)) =
          l.filter (fun r => decide (r.total_time = t))) ∧
      (∀ l : List RaceResult, leaderboardTop l = (sortResults l).take 10) ∧
      (sortResults [exampleResult 10, exampleResult (17 / 2), exampleResult 12]).map
          RaceResult.total_time =
        [17 / 2, 10, 12] ∧
      (∀ s : RaceState, s.state = .leaderboard →
        RaceGame.process_key s 'c' = some { s with results := [] }) ∧
      sortResults [] = [] := by
  refine ⟨sortResults_sorted, sortResults_perm, sortResults_filter_key, fun l => rfl, ?_, ?_,
    rfl⟩
  · norm_num [sortResults, List.insertionSort, List.orderedInsert, byTotal, exampleResult]
  · intro s hs
    simp only [RaceGame.process_key, hs]
    simp

/-- C7 witness: ranking facts and the clear action at concrete inputs. -/
theorem hw_c7_witness :
    List.Sorted byTotal (sortResults [exampleResult 10, exampleResult (17 / 2)]) ∧
      RaceGame.process_key { initRace with state := .leaderboard } 'c' =
        some { { initRace with state := .leaderboard } with results := [] } := by
  have h := hw_c7_leaderboard
  exact ⟨h.1 [exampleResult 10, exampleResult (17 / 2)],
    h.2.2.2.2.2.1 { initRace with state := .leaderboard } rfl⟩

/-- C8: for an NDEF payload of at least 10 bytes whose record type is the
single character U and whose declared payload length is at least 1, the
decoded uri is exactly the prefix-table entry for the code byte concatenated
with the lossy UTF-8 decode of the remaining declared payload (pl - 1 bytes
when the payload boundary lies within the notification), and every code of
5 or more maps to the empty prefix rather than an error. -/
theorem hw_c8_ndef_uri (data : List ℕ) (h10 : 10 ≤ data.length)
    (hU : pySlice data 3 (3 + data.getD 1 0) = [0x55]) (hpl : 1 ≤ data.getD 2 0) :
    ndefUri (decode_ndef_record data) =
      some (uriPrefixTable (data.getD 4 0) ++
        utf8DecodeReplace (pySlice data 5 (4 + data.getD 2 0))) ∧
      pySlice data 5 (4 + data.getD 2 0) = (data.drop 5).take (data.getD 2 0 - 1) ∧
      (4 + data.getD 2 0 ≤ data.length →
        (pySlice data 5 (4 + data.getD 2 0)).length = data.getD 2 0 - 1) ∧
      (∀ code, 5 ≤ code → uriPrefixTable code = "") := by
  refine ⟨?_, ?_, ?_, ?_⟩
  · rw [decode_ndef_record, if_neg (by omega)]
    simp only [hU, reduceIte]
    repeat' split
    all_goals rfl
  · rw [pySlice]
    congr 1
    omega
  · intro hle
    rw [pySlice, List.length_take, List.length_drop]
    omega
  · intro code hcode
    rw [uriPrefixTable]
    rw [if_neg (by omega), if_neg (by omega), if_neg (by omega), if_neg (by omega),
      if_neg (by omega)]

/-- C8 witness: a concrete type-U record with prefix code 2. -/
theorem hw_c8_witness :
    ndefUri (decode_ndef_record [209, 1, 6, 85, 2, 104, 105, 46, 106, 107]) =
      some (uriPrefixTable (([209, 1, 6, 85, 2, 104, 105, 46, 106, 107] : List ℕ).getD 4 0) ++
        utf8DecodeReplace
          (pySlice [209, 1, 6, 85, 2, 104, 105, 46, 106, 107] 5
            (4 + ([209, 1, 6, 85, 2, 104, 105, 46, 106, 107] : List ℕ).getD 2 0))) :=
  (hw_c8_ndef_uri [209, 1, 6, 85, 2, 104, 105, 46, 106, 107] (by decide) (by decide)
    (by decide)).1

/-- C9: finalizing with an empty lap list is a no-op (no result, no state
change), and every constructed RaceResult has lap_count equal to the length
of its lap list and every entry bounded below by best_lap and above by
worst_lap. -/
theorem hw_c9_result_invariants (s : RaceState) :
    (s.lap_times = [] → RaceGame.finish_race s = s) ∧
      (s.lap_times ≠ [] →
        (finish_result s).lap_count = (finish_result s).lap_times.length ∧
          (finish_result s).lap_times = s.lap_times ∧
          ∀ x ∈ (finish_result s).lap_times,
            (finish_result s).best_lap ≤ x ∧ x ≤ (finish_result s).worst_lap) := by
  constructor
  · intro h
    rw [RaceGame.finish_race, if_pos h]
  · intro h
    refine ⟨rfl, rfl, ?_⟩
    intro x hx
    simp only [finish_result] at hx ⊢
    exact ⟨listMin_le s.lap_times x hx, le_listMax s.lap_times x hx⟩

/-- C9 witness: the no-op on the empty lap list and the invariants at
[4, 2, 6]. -/
theorem hw_c9_witness :
    RaceGame.finish_race initRace = initRace ∧
      (finish_result { initRace with lap_times := [4, 2, 6] }).lap_count =
        (finish_result { initRace with lap_times := [4, 2, 6] }).lap_times.length := by
  exact ⟨(hw_c9_result_invariants initRace).1 rfl,
    ((hw_c9_result_invariants { initRace with lap_times := [4, 2, 6] }).2 (by simp)).1⟩

/-- C10: when a pass's computed lap duration is exactly 0 (two samples at
the same instant), Python truthiness skips both the best-lap update and the
lap-time append for the active car, yet the pass counter still increments
and the stored pass record carries the 0 duration. -/
theorem hw_c10_zero_lap_duration (s : DashState) (uid : String) (c : CarStats) (d : List ℕ)
    (now : ℚ) (h4 : 4 ≤ d.length) (hcar : s.current_car = some uid)
    (hdb : dbLookup s.car_database uid = some c)
    (hlp : s.last_pass_time = some now) :
    (dbLookup (Dashboard.handle_event s .event3 d now).car_database uid).map
        CarStats.lap_times = some c.lap_times ∧
      (dbLookup (Dashboard.handle_event s .event3 d now).car_database uid).map
        CarStats.best_lap = some c.best_lap ∧
      (dbLookup (Dashboard.handle_event s .event3 d now).car_database uid).map
        CarStats.laps = some (c.laps + 1) ∧
      (Dashboard.handle_event s .event3 d now).total_passes = s.total_passes + 1 ∧
      ((Dashboard.handle_event s .event3 d now).recent_passes.getLast?).map
        PassRecord.lap_time = some (some 0) := by
  obtain ⟨hrec, _, htp⟩ := dash_pass_record s d now h4
  have hk : s.recent_passes.length + 1 - 10 ≤ s.recent_passes.length := by omega
  have hlast : ((Dashboard.handle_event s .event3 d now).recent_passes.getLast?).map
      PassRecord.lap_time = some (some 0) := by
    rw [hrec, List.drop_append_of_le_length hk, List.getLast?_concat]
    simp [hlp, sub_self]
  refine ⟨?_, ?_, ?_, htp, hlast⟩ <;>
  · rw [Dashboard.handle_event, if_pos h4]
    simp only [hcar, hlp]
    rw [dbLookup_dbUpdate]
    simp only [hdb, Option.map_some']
    have h0 : now - now = 0 := sub_self now
    simp only [h0, ne_eq, not_true_eq_false, false_and, if_false]
    split <;> rfl

/-- C10 witness: a second pass at the same instant 5 for a registered car. -/
theorem hw_c10_witness :
    (dbLookup
          (Dashboard.handle_event
              { initDash with
                current_car := some strUnknown
                car_database := [(strUnknown, CarStats.new strUnknown 0)]
                last_pass_time := some 5 }
              .event3 [0, 0, 0, 0] 5).car_database
          strUnknown).map
        CarStats.lap_times = some (CarStats.new strUnknown 0).lap_times ∧
      (Dashboard.handle_event
            { initDash with
              current_car := some strUnknown
              car_database := [(strUnknown, CarStats.new strUnknown 0)]
              last_pass_time := some 5 }
            .event3 [0, 0, 0, 0] 5).total_passes =
        { initDash with
            current_car := some strUnknown
            car_database := [(strUnknown, CarStats.new strUnknown 0)]
            last_pass_time := some 5 }.total_passes + 1 := by
  have h := hw_c10_zero_lap_duration
    { initDash with
      current_car := some strUnknown
      car_database := [(strUnknown, CarStats.new strUnknown 0)]
      last_pass_time := some 5 }
    strUnknown (CarStats.new strUnknown 0) [0, 0, 0, 0] 5 (by decide) rfl (by decide) rfl
  exact ⟨h.1, h.2.2.2.1⟩
